import Mathlib

/-
Verification of the transposition-table core (src/tt.cpp) and the static
evaluation wrapper (src/evaluate.cpp) of this Stockfish derivative.

Shallow embedding conventions:
  * unsigned C++ fields (uint8_t, uint16_t) are Nat, with the mod-2^w
    truncation written explicitly at every cast site that the source has;
  * signed C++ int values are Int; C++ truncating division is Int.tdiv;
  * the table memory is a function Nat -> Cluster together with an explicit
    clusterCount; a memory access that the source performs without a bounds
    guard is modelled as Option (none = out-of-bounds access).

The header tt.h is not part of the provided sources; the numeric constants
it declares (ClusterSize, DEPTH_ENTRY_OFFSET, the GENERATION_* family and the
byte size of a Cluster) are modelled below from the spec text and the tt.cpp
comments; each such definition carries a note.
-/

namespace Stockfish

/-- Modelled from the spec: the bound classification from types.h (not under
src/): one of NONE, UPPER, LOWER, EXACT, packed in the two low bits of the
gen/bound byte; EXACT has both bits set. -/
inductive Bound where
  | BOUND_NONE
  | BOUND_UPPER
  | BOUND_LOWER
  | BOUND_EXACT
deriving DecidableEq

/-- Numeric value of a `Bound` as packed into the low two bits of `genBound8`. -/
def Bound.toNat : Bound → Nat
  | .BOUND_NONE => 0
  | .BOUND_UPPER => 1
  | .BOUND_LOWER => 2
  | .BOUND_EXACT => 3

/-- Modelled from the spec: `ClusterSize` from tt.h (not under src/): the
fixed number of entries per cluster. Three 10-byte entries plus 2 bytes of
padding give the 32-byte cluster of the source layout. -/
abbrev ClusterSize : Nat := 3

/-- Modelled from the spec: `DEPTH_ENTRY_OFFSET` from tt.h (not under src/).
The spec says depth is stored "with a fixed negative offset subtracted so that
small negative depths (from quiescence search) can be represented"; the tt.cpp
asserts `d > DEPTH_ENTRY_OFFSET` and `d < 256 + DEPTH_ENTRY_OFFSET` fix its
role; the source value is -3. -/
def DEPTH_ENTRY_OFFSET : Int := -3

/-- Modelled from the spec: number of low bits of `genBound8` holding
bound (2 bits) and pv (1 bit); the generation counter lives in the high
5 bits. From tt.h (not under src/). -/
def TranspositionTable.GENERATION_BITS : Nat := 3

/-- Increment of the packed generation counter: `1 <<< GENERATION_BITS`. -/
def TranspositionTable.GENERATION_DELTA : Nat := 1 <<< TranspositionTable.GENERATION_BITS

/-- Modelled from the spec: cycle length used by `relative_age`; per the
tt.cpp comment it is "256 is the modulus, plus what is needed to keep the
unrelated lowest n bits from affecting the result", i.e. 255 + GENERATION_DELTA. -/
def TranspositionTable.GENERATION_CYCLE : Nat := 255 + TranspositionTable.GENERATION_DELTA

/-- Modelled from the spec: mask keeping only the generation bits of
`genBound8`: `(0xFF <<< GENERATION_BITS) &&& 0xFF = 0xF8`. -/
def TranspositionTable.GENERATION_MASK : Nat :=
  (0xFF <<< TranspositionTable.GENERATION_BITS) &&& 0xFF

/-- The C++ cast `uint8_t(x)` of a signed int: the nonnegative residue mod 256. -/
def uint8OfInt (x : Int) : Nat := (x % 256).toNat

/-- The C++ cast `int16_t(x)` of a signed int: wrap into [-32768, 32768). -/
def int16OfInt (x : Int) : Int := (x + 32768) % 65536 - 32768

/-- One transposition-table entry, the packed 10-byte record of tt.h
(fields exactly as in the source: key16, depth8, genBound8, move16,
value16, eval16). -/
structure TTEntry where
  key16 : Nat
  depth8 : Nat
  genBound8 : Nat
  move16 : Nat
  value16 : Int
  eval16 : Int
deriving DecidableEq

/-- TTEntry::relative_age (tt.cpp lines 62-71):
`(GENERATION_CYCLE + generation8 - genBound8) & GENERATION_MASK`.
Both generation8 and genBound8 are 8-bit, so the int subtraction of the
source is nonnegative and Nat subtraction agrees with it. -/
def TTEntry.relative_age (e : TTEntry) (generation8 : Nat) : Nat :=
  (TranspositionTable.GENERATION_CYCLE + generation8 - e.genBound8)
    &&& TranspositionTable.GENERATION_MASK

/-- The gen/bound byte written by save:
`uint8_t(generation8 | uint8_t(pv) << 2 | b)`. -/
def packGenBound (generation8 : Nat) (pv : Bool) (b : Bound) : Nat :=
  (generation8 ||| (if pv then 1 else 0) <<< 2 ||| b.toNat) % 256

/-- TTEntry::save (tt.cpp lines 39-59). Populates the entry with a new
data of the new node. The move is retained unless the caller supplies one or the key
fragment changes; the remaining fields are overwritten only when the new
data is judged more valuable (cheapest checks first, as in the source). -/
def TTEntry.save (e : TTEntry) (k : Nat) (v : Int) (pv : Bool) (b : Bound)
    (d : Int) (m : Nat) (ev : Int) (generation8 : Nat) : TTEntry :=
  -- Preserve the old ttmove if there is no new one
  let moved := if m ≠ 0 ∨ k % 65536 ≠ e.key16 then { e with move16 := m } else e
  -- Overwrite less valuable entries (cheapest checks first)
  if b = Bound.BOUND_EXACT ∨ k % 65536 ≠ e.key16
      ∨ d - DEPTH_ENTRY_OFFSET + 2 * (if pv then 1 else 0) > (e.depth8 : Int) - 4
      ∨ e.relative_age generation8 ≠ 0 then
    { moved with
      key16 := k % 65536
      depth8 := uint8OfInt (d - DEPTH_ENTRY_OFFSET)
      genBound8 := packGenBound generation8 pv b
      value16 := int16OfInt v
      eval16 := int16OfInt ev }
  else
    moved

/-- A cluster: `ClusterSize` entries (tt.h; lookup scans them linearly). -/
abbrev Cluster : Type := Fin ClusterSize → TTEntry

/-- The all-zero entry, as produced by the memset in clear. -/
def zeroEntry : TTEntry := ⟨0, 0, 0, 0, 0, 0⟩

/-- The all-zero cluster. -/
def zeroCluster : Cluster := fun _ => zeroEntry

/-- Replacement valuation used by probe (tt.cpp lines 133-136):
`depth8 - relative_age(generation8) * 2`, computed in int. -/
def clusterVal (e : TTEntry) (generation8 : Nat) : Int :=
  (e.depth8 : Int) - (e.relative_age generation8 : Int) * 2

/-- The cluster-level body of TranspositionTable::probe (tt.cpp lines
122-139) with the `ClusterSize = 3` loops unrolled: scan for a key16 match
(first match wins, found = occupancy of that entry); otherwise return the
least valuable entry, the first entry being the initial candidate and ties
keeping the earlier-scanned entry. Returns the entry index and `found`. -/
def probeCluster (c : Cluster) (key16 : Nat) (generation8 : Nat) :
    Fin ClusterSize × Bool :=
  if (c 0).key16 = key16 then (0, (c 0).depth8 != 0)
  else if (c 1).key16 = key16 then (1, (c 1).depth8 != 0)
  else if (c 2).key16 = key16 then (2, (c 2).depth8 != 0)
  else
    let r1 : Fin ClusterSize :=
      if clusterVal (c 0) generation8 > clusterVal (c 1) generation8 then 1 else 0
    let r2 : Fin ClusterSize :=
      if clusterVal (c r1) generation8 > clusterVal (c 2) generation8 then 2 else r1
    (r2, false)

/-- Modelled from the spec: TranspositionTable::first_entry (tt.h, not under
src/): "multiply the fingerprint by clusterCount as a 128-bit product and
take the high 64 bits as the index" (mul_hi64). -/
def firstEntryIndex (key clusterCount : Nat) : Nat :=
  key % 2 ^ 64 * clusterCount / 2 ^ 64

/-- TranspositionTable::probe (tt.cpp lines 122-139) over the whole table.
The source dereferences the owning cluster with no bounds check; the access
is in bounds exactly when the computed index is below clusterCount, and an
out-of-bounds dereference is modelled as `none`. -/
def TranspositionTable.probe (clusterCount : Nat) (table : Nat → Cluster)
    (generation8 : Nat) (key : Nat) : Option (Fin ClusterSize × Bool) :=
  if firstEntryIndex key clusterCount < clusterCount then
    some (probeCluster (table (firstEntryIndex key clusterCount)) (key % 65536) generation8)
  else
    none

/-- Occupancy indicator of the inner loop of hashfull:
`depth8 && (genBound8 & GENERATION_MASK) == generation8`. -/
def freshInd (e : TTEntry) (generation8 : Nat) : Nat :=
  if e.depth8 ≠ 0 ∧ e.genBound8 &&& TranspositionTable.GENERATION_MASK = generation8
  then 1 else 0

/-- Fresh-entry count of one cluster (the inner loop of hashfull unrolled). -/
def freshCount (c : Cluster) (generation8 : Nat) : Nat :=
  freshInd (c 0) generation8 + freshInd (c 1) generation8 + freshInd (c 2) generation8

/-- TranspositionTable::hashfull (tt.cpp lines 145-154): scans the first
1000 clusters unconditionally (`for (int i = 0; i < 1000; ++i)`), counts
fresh occupied entries and divides by ClusterSize. The source performs the
1000 reads with no bounds check; on a table with fewer than 1000 clusters
they run out of bounds, modelled as `none`. -/
def TranspositionTable.hashfull (clusterCount : Nat) (table : Nat → Cluster)
    (generation8 : Nat) : Option Nat :=
  if 1000 ≤ clusterCount then
    some (((List.range 1000).foldl
      (fun cnt i => cnt + freshCount (table i) generation8) 0) / ClusterSize)
  else
    none

/-- Stride of worker thread i in TranspositionTable::clear (tt.cpp lines
101-107): `stride = clusterCount / threadCount; start = stride * i;
len = i + 1 != threadCount ? stride : clusterCount - start`.
Returns (start, len). -/
def strideOf (clusterCount threadCount i : Nat) : Nat × Nat :=
  (clusterCount / threadCount * i,
   if i + 1 ≠ threadCount then clusterCount / threadCount
   else clusterCount - clusterCount / threadCount * i)

/-- Cluster j lies inside the stride of thread i. -/
def inStride (clusterCount threadCount j i : Nat) : Prop :=
  (strideOf clusterCount threadCount i).1 ≤ j ∧
    j < (strideOf clusterCount threadCount i).1 + (strideOf clusterCount threadCount i).2

instance (N T j i : Nat) : Decidable (inStride N T j i) := by
  unfold inStride; infer_instance

/-- Effect of `std::memset(&table[start], 0, len * sizeof(Cluster))`. -/
def memsetZero (t : Nat → Cluster) (start len : Nat) : Nat → Cluster :=
  fun j => if start ≤ j ∧ j < start + len then zeroCluster else t j

/-- TranspositionTable::clear (tt.cpp lines 96-113): each worker thread i
zeroes its stride; the strides are disjoint, so the sequential composition
of the memsets models the barrier-joined parallel zeroing. -/
def TranspositionTable.clear (clusterCount threadCount : Nat)
    (t : Nat → Cluster) : Nat → Cluster :=
  (List.range threadCount).foldl
    (fun acc i => memsetZero acc (strideOf clusterCount threadCount i).1
      (strideOf clusterCount threadCount i).2) t

/-- Modelled from the spec: byte size of a Cluster (tt.h, not under src/):
three 10-byte packed entries plus 2 padding bytes, 32 bytes in all. -/
def TranspositionTable.sizeOfCluster : Nat := 32

/-- Cluster count computed by resize (tt.cpp line 80):
`clusterCount = mbSize * 1024 * 1024 / sizeof(Cluster)`. -/
def TranspositionTable.resizeClusterCount (mbSize : Nat) : Nat :=
  mbSize * 1024 * 1024 / TranspositionTable.sizeOfCluster

/-- Byte count requested from the allocator by resize (tt.cpp line 82). -/
def TranspositionTable.resizeBytes (mbSize : Nat) : Nat :=
  TranspositionTable.resizeClusterCount mbSize * TranspositionTable.sizeOfCluster

/-- TranspositionTable::resize (tt.cpp lines 77-91): free the old table,
compute the cluster count, allocate, and clear. Allocation failure is fatal:
the source prints a diagnostic to stderr and calls `exit(EXIT_FAILURE)`,
modelled as `Except.error 1` (EXIT_FAILURE = 1); there is no retry and no
fallback size. On success the freshly allocated memory `mem` is fully
cleared and the new (clusterCount, table) pair is returned. -/
def TranspositionTable.resize (mbSize : Nat)
    (alloc : Nat → Option (Nat → Cluster)) (threadCount : Nat) :
    Except Nat (Nat × (Nat → Cluster)) :=
  match alloc (TranspositionTable.resizeBytes mbSize) with
  | none => Except.error 1
  | some mem =>
      Except.ok (TranspositionTable.resizeClusterCount mbSize,
        TranspositionTable.clear (TranspositionTable.resizeClusterCount mbSize) threadCount mem)

/-- The overwrite predicate of TTEntry::save in the wording of the spec: the new
bound is EXACT, or the stored key fragment differs from the low 16 bits of
the new fingerprint, or the new depth plus a pv bonus of 2 exceeds the
stored depth (depth8 read back through the offset) by more than the fixed
margin `saveMargin`, or the relative age of the entry is non-zero. -/
def saveMargin : Int := -4

/-- The four-condition overwrite predicate, spec-side formulation. -/
def specOverwrite (e : TTEntry) (k : Nat) (pv : Bool) (b : Bound) (d : Int)
    (generation8 : Nat) : Prop :=
  b = Bound.BOUND_EXACT ∨
  e.key16 ≠ k % 65536 ∨
  d + (if pv then 2 else 0) > ((e.depth8 : Int) + DEPTH_ENTRY_OFFSET) + saveMargin ∨
  e.relative_age generation8 ≠ 0

instance (e k pv b d g) : Decidable (specOverwrite e k pv b d g) := by
  unfold specOverwrite; infer_instance

/-- Equality of all fields except the move. -/
def nonMoveFieldsEq (a b : TTEntry) : Prop :=
  a.key16 = b.key16 ∧ a.depth8 = b.depth8 ∧ a.genBound8 = b.genBound8 ∧
    a.value16 = b.value16 ∧ a.eval16 = b.eval16

instance (a b : TTEntry) : Decidable (nonMoveFieldsEq a b) := by
  unfold nonMoveFieldsEq; infer_instance

/-- Modelled from the spec: `VALUE_MATE` from types.h (not under src/). -/
def VALUE_MATE : Int := 32000

/-- Modelled from the spec: `MAX_PLY` from types.h (not under src/). -/
def MAX_PLY : Int := 246

/-- Modelled from the spec: `VALUE_MATE_IN_MAX_PLY = VALUE_MATE - MAX_PLY`. -/
def VALUE_MATE_IN_MAX_PLY : Int := VALUE_MATE - MAX_PLY

/-- Modelled from the spec: `VALUE_TB = VALUE_MATE_IN_MAX_PLY - 1`. -/
def VALUE_TB : Int := VALUE_MATE_IN_MAX_PLY - 1

/-- Modelled from the spec: `VALUE_TB_WIN_IN_MAX_PLY = VALUE_TB - MAX_PLY`. -/
def VALUE_TB_WIN_IN_MAX_PLY : Int := VALUE_TB - MAX_PLY

/-- Modelled from the spec: `VALUE_TB_LOSS_IN_MAX_PLY = -VALUE_TB_WIN_IN_MAX_PLY`. -/
def VALUE_TB_LOSS_IN_MAX_PLY : Int := -VALUE_TB_WIN_IN_MAX_PLY

/-- C++ `std::clamp(v, lo, hi)`. -/
def clampInt (v lo hi : Int) : Int :=
  if v < lo then lo else if hi < v then hi else v

/-- Eval::evaluate (evaluate.cpp lines 173-219). The opaque collaborators
are passed as integer inputs: `simpleEval` (material evaluation of the
position), `nnue0` and `nnueComplexity` (network output for whichever net
the thresholds select), `npmRaw` (pos.non_pawn_material()), `pawnCnt`
(pos.count of pawns), `shuffling` (pos.rule50_count()), the `optimism`
argument, the globals `randomEval` (NNUE::RandomEval) and `waitMs`
(NNUE::WaitMs), and `r` standing for `Value(r)`, the truncation of the
clamped normal float sample of the RandomEval path (the float computation
and the sleep are summarized by this opaque input). All int arithmetic uses
C++ truncating division. -/
def evaluate (simpleEval nnue0 nnueComplexity npmRaw pawnCnt shuffling
    optimism0 randomEval waitMs r : Int) : Int :=
  let adj := nnueComplexity + |simpleEval - nnue0|
  let optimism := optimism0 + Int.tdiv (optimism0 * adj) 524
  let nnue := nnue0 - Int.tdiv (nnue0 * adj) 31950
  let npm := Int.tdiv npmRaw 64
  let v0 := Int.tdiv (nnue * (927 + npm + 9 * pawnCnt) + optimism * (159 + npm)) 1000
  -- Damp down the evaluation linearly when shuffling
  let v1 := Int.tdiv (v0 * (195 - shuffling)) 228
  -- RandomEval / WaitMs blending path
  let v2 := if randomEval ≠ 0 ∨ waitMs ≠ 0 then
      Int.tdiv (randomEval * r + (100 - randomEval) * v1) 100
    else v1
  -- Guarantee evaluation does not hit the tablebase range
  clampInt v2 (VALUE_TB_LOSS_IN_MAX_PLY + 1) (VALUE_TB_WIN_IN_MAX_PLY - 1)

/-- Concrete occupied entry for the C1 scenario: produced by a save with
key 5, value 100, no pv, bound LOWER, depth 10, move 7, eval 50,
generation 8; its raw fields are
key16 = 5, depth8 = 13 (stored depth 10), genBound8 = 10, move16 = 7,
value16 = 100, eval16 = 50. -/
def entryDepth10 : TTEntry :=
  TTEntry.save zeroEntry 5 100 false Bound.BOUND_LOWER 10 7 50 8

/-- Concrete nonzero entry used by witnesses. -/
def entryW : TTEntry := ⟨9, 4, 16, 3, -7, 12⟩

/-- Concrete cluster used by witnesses: a non-matching entry first, an
occupied matching entry (key16 = 5) second. -/
def clusterW : Cluster := fun j =>
  if j = 0 then entryW
  else if j = 1 then ⟨5, 7, 8, 2, 30, 40⟩
  else zeroEntry

/-- Concrete nonzero table used by witnesses. -/
def tableW : Nat → Cluster := fun _ => clusterW

/-- The overwrite condition of the source coincides with the spec-side
four-condition predicate. -/
lemma save_cond_iff (e : TTEntry) (k : Nat) (pv : Bool) (b : Bound) (d : Int)
    (g : Nat) :
    (b = Bound.BOUND_EXACT ∨ k % 65536 ≠ e.key16
      ∨ d - DEPTH_ENTRY_OFFSET + 2 * (if pv then 1 else 0) > (e.depth8 : Int) - 4
      ∨ e.relative_age g ≠ 0)
    ↔ specOverwrite e k pv b d g := by
  unfold specOverwrite
  have h3 : (d - DEPTH_ENTRY_OFFSET + 2 * (if pv then (1 : Int) else 0)
        > (e.depth8 : Int) - 4)
      ↔ (d + (if pv then (2 : Int) else 0)
        > ((e.depth8 : Int) + DEPTH_ENTRY_OFFSET) + saveMargin) := by
    unfold DEPTH_ENTRY_OFFSET saveMargin
    cases pv <;> simp <;> omega
  have h2 : (k % 65536 ≠ e.key16) ↔ (e.key16 ≠ k % 65536) := ne_comm
  rw [h3, h2]

/-- The move stored by save: the move of the caller when one is supplied or the
key fragment changes, the retained old move otherwise. -/
lemma save_move16_eq (e : TTEntry) (k : Nat) (v : Int) (pv : Bool) (b : Bound)
    (d : Int) (m : Nat) (ev : Int) (g : Nat) :
    (e.save k v pv b d m ev g).move16
      = if m ≠ 0 ∨ k % 65536 ≠ e.key16 then m else e.move16 := by
  simp only [TTEntry.save]
  split_ifs <;> rfl

/-- When the overwrite predicate holds, save writes all non-move fields. -/
lemma save_fields_of_overwrite (e : TTEntry) (k : Nat) (v : Int) (pv : Bool)
    (b : Bound) (d : Int) (m : Nat) (ev : Int) (g : Nat)
    (h : specOverwrite e k pv b d g) :
    (e.save k v pv b d m ev g).key16 = k % 65536 ∧
    (e.save k v pv b d m ev g).depth8 = uint8OfInt (d - DEPTH_ENTRY_OFFSET) ∧
    (e.save k v pv b d m ev g).genBound8 = packGenBound g pv b ∧
    (e.save k v pv b d m ev g).value16 = int16OfInt v ∧
    (e.save k v pv b d m ev g).eval16 = int16OfInt ev := by
  have hc := (save_cond_iff e k pv b d g).mpr h
  simp only [TTEntry.save]
  rw [if_pos hc]
  split_ifs <;> exact ⟨rfl, rfl, rfl, rfl, rfl⟩

/-- When the overwrite predicate fails, save leaves all non-move fields
unchanged. -/
lemma save_fields_of_keep (e : TTEntry) (k : Nat) (v : Int) (pv : Bool)
    (b : Bound) (d : Int) (m : Nat) (ev : Int) (g : Nat)
    (h : ¬ specOverwrite e k pv b d g) :
    nonMoveFieldsEq (e.save k v pv b d m ev g) e := by
  have hc : ¬ (b = Bound.BOUND_EXACT ∨ k % 65536 ≠ e.key16
      ∨ d - DEPTH_ENTRY_OFFSET + 2 * (if pv then 1 else 0) > (e.depth8 : Int) - 4
      ∨ e.relative_age g ≠ 0) := fun hcc => h ((save_cond_iff e k pv b d g).mp hcc)
  unfold nonMoveFieldsEq
  simp only [TTEntry.save]
  rw [if_neg hc]
  split_ifs <;> exact ⟨rfl, rfl, rfl, rfl, rfl⟩

/-- The first loop of probe: the first key16 match is returned, with
found = occupancy of the matching entry. -/
lemma probeCluster_match (c : Cluster) (k16 g : Nat) (j : Fin ClusterSize)
    (hj : (c j).key16 = k16)
    (hmin : ∀ j2 : Fin ClusterSize, j2 < j → (c j2).key16 ≠ k16) :
    probeCluster c k16 g = (j, (c j).depth8 != 0) := by
  fin_cases j
  · have hj0 : (c 0).key16 = k16 := hj
    show probeCluster c k16 g = (0, (c 0).depth8 != 0)
    simp [probeCluster, hj0]
  · have h0 : (c 0).key16 ≠ k16 := hmin 0 (by decide)
    have hj1 : (c 1).key16 = k16 := hj
    show probeCluster c k16 g = (1, (c 1).depth8 != 0)
    simp [probeCluster, h0, hj1]
  · have h0 : (c 0).key16 ≠ k16 := hmin 0 (by decide)
    have h1 : (c 1).key16 ≠ k16 := hmin 1 (by decide)
    have hj2 : (c 2).key16 = k16 := hj
    show probeCluster c k16 g = (2, (c 2).depth8 != 0)
    simp [probeCluster, h0, h1, hj2]

/-- The second loop of probe: with no key16 match, the returned entry is a
minimizer of the replacement valuation, ties kept by the earlier index. -/
lemma probeCluster_nomatch (c : Cluster) (k16 g : Nat)
    (h0 : (c 0).key16 ≠ k16) (h1 : (c 1).key16 ≠ k16) (h2 : (c 2).key16 ≠ k16) :
    (probeCluster c k16 g).2 = false ∧
    (∀ j : Fin ClusterSize,
      clusterVal (c (probeCluster c k16 g).1) g ≤ clusterVal (c j) g) ∧
    (∀ j : Fin ClusterSize, j < (probeCluster c k16 g).1 →
      clusterVal (c (probeCluster c k16 g).1) g < clusterVal (c j) g) := by
  simp only [probeCluster, if_neg h0, if_neg h1, if_neg h2]
  split_ifs with ha hb hc
  · refine ⟨trivial, ?_, ?_⟩
    · intro j
      fin_cases j
      · exact le_of_lt (lt_trans hb ha)
      · exact le_of_lt hb
      · exact le_refl _
    · intro j hlt
      fin_cases j
      · exact lt_trans hb ha
      · exact hb
      · exact absurd hlt (by decide)
  · refine ⟨trivial, ?_, ?_⟩
    · intro j
      fin_cases j
      · exact le_of_lt ha
      · exact le_refl _
      · exact not_lt.mp hb
    · intro j hlt
      fin_cases j
      · exact ha
      · exact absurd hlt (by decide)
      · exact absurd hlt (by decide)
  · refine ⟨trivial, ?_, ?_⟩
    · intro j
      fin_cases j
      · exact le_of_lt hc
      · exact le_of_lt (lt_of_lt_of_le hc (not_lt.mp ha))
      · exact le_refl _
    · intro j hlt
      fin_cases j
      · exact hc
      · exact lt_of_lt_of_le hc (not_lt.mp ha)
      · exact absurd hlt (by decide)
  · refine ⟨trivial, ?_, ?_⟩
    · intro j
      fin_cases j
      · exact le_refl _
      · exact not_lt.mp ha
      · exact not_lt.mp hc
    · intro j hlt
      fin_cases j
      · exact absurd hlt (by decide)
      · exact absurd hlt (by decide)
      · exact absurd hlt (by decide)

/-- The cluster index computed by first_entry is in bounds for every
fingerprint whenever the table is non-empty. -/
lemma firstEntryIndex_lt (key N : Nat) (h : 0 < N) : firstEntryIndex key N < N := by
  unfold firstEntryIndex
  have hk : key % 2 ^ 64 < 2 ^ 64 := Nat.mod_lt _ (by norm_num)
  have h2 : key % 2 ^ 64 * N < N * 2 ^ 64 := by
    calc key % 2 ^ 64 * N < 2 ^ 64 * N := mul_lt_mul_of_pos_right hk h
    _ = N * 2 ^ 64 := Nat.mul_comm _ _
  exact (Nat.div_lt_iff_lt_mul (by norm_num)).mpr h2

/-- Two distinct strides of clear never contain the same cluster index. -/
lemma stride_disjoint (N T : Nat) {i1 i2 j : Nat} (h12 : i1 < i2) (h2T : i2 < T)
    (m1 : inStride N T j i1) (m2 : inStride N T j i2) : False := by
  have hi1 : i1 + 1 ≠ T := by omega
  unfold inStride strideOf at m1 m2
  rw [if_pos hi1] at m1
  have hmul : N / T * (i1 + 1) ≤ N / T * i2 := Nat.mul_le_mul_left _ h12
  have hsucc : N / T * (i1 + 1) = N / T * i1 + N / T := by ring
  have hm2 := m2.1
  omega

/-- Every cluster index below clusterCount lies in some stride. -/
lemma stride_exists (N T : Nat) (hT : 0 < T) (j : Nat) (hj : j < N) :
    ∃ i, i < T ∧ inStride N T j i := by
  unfold inStride strideOf
  by_cases hlast : N / T * (T - 1) ≤ j
  · refine ⟨T - 1, by omega, ?_⟩
    have hT1 : ¬ (T - 1 + 1 ≠ T) := by omega
    rw [if_neg hT1]
    exact ⟨hlast, by omega⟩
  · push_neg at hlast
    have hspos : 0 < N / T := by
      rcases Nat.eq_zero_or_pos (N / T) with h0 | h
      · rw [h0, Nat.zero_mul] at hlast; omega
      · exact h
    have hidiv : j / (N / T) < T - 1 := by
      rw [Nat.div_lt_iff_lt_mul hspos]
      calc j < N / T * (T - 1) := hlast
      _ = (T - 1) * (N / T) := Nat.mul_comm _ _
    refine ⟨j / (N / T), by omega, ?_⟩
    have hne : j / (N / T) + 1 ≠ T := by omega
    rw [if_pos hne]
    have hdm := Nat.div_add_mod j (N / T)
    have hmlt : j % (N / T) < N / T := Nat.mod_lt _ hspos
    exact ⟨by omega, by omega⟩

/-- The stride containing a cluster index is unique. -/
lemma stride_unique (N T : Nat) (j : Nat) {i1 i2 : Nat}
    (h1 : i1 < T ∧ inStride N T j i1) (h2 : i2 < T ∧ inStride N T j i2) :
    i1 = i2 := by
  rcases Nat.lt_trichotomy i1 i2 with h | h | h
  · exact (stride_disjoint N T h h2.1 h1.2 h2.2).elim
  · exact h
  · exact (stride_disjoint N T h h1.1 h2.2 h1.2).elim

/-- Characterization of the memset fold of clear: a cluster is zeroed
exactly when some processed stride contains it. -/
lemma clear_foldl_eq (N T : Nat) (l : List Nat) (t : Nat → Cluster) (j : Nat) :
    (l.foldl (fun acc i => memsetZero acc (strideOf N T i).1 (strideOf N T i).2) t) j
      = if ∃ i ∈ l, inStride N T j i then zeroCluster else t j := by
  induction l generalizing t with
  | nil => simp
  | cons a l ih =>
    rw [List.foldl_cons, ih]
    by_cases h2 : inStride N T j a
    · have hm : memsetZero t (strideOf N T a).1 (strideOf N T a).2 j = zeroCluster := by
        unfold inStride at h2
        unfold memsetZero
        rw [if_pos h2]
      by_cases h1 : ∃ i ∈ l, inStride N T j i <;>
        simp [List.exists_mem_cons_iff, h1, h2, hm]
    · have hm : memsetZero t (strideOf N T a).1 (strideOf N T a).2 j = t j := by
        unfold inStride at h2
        unfold memsetZero
        rw [if_neg h2]
      by_cases h1 : ∃ i ∈ l, inStride N T j i <;>
        simp [List.exists_mem_cons_iff, h1, h2, hm]

/-- After clear, every cluster of the table is zero. -/
lemma clear_eq_zero (N T : Nat) (hT : 0 < T) (t : Nat → Cluster) (j : Nat)
    (hj : j < N) : TranspositionTable.clear N T t j = zeroCluster := by
  obtain ⟨i, hiT, hins⟩ := stride_exists N T hT j hj
  unfold TranspositionTable.clear
  rw [clear_foldl_eq, if_pos ⟨i, List.mem_range.mpr hiT, hins⟩]

/-- Probing an all-zero cluster reports found = false (and yields the first
entry as the replacement candidate). -/
lemma probeCluster_zero (k16 g : Nat) : probeCluster zeroCluster k16 g = (0, false) := by
  by_cases h : (0 : Nat) = k16
  · subst h
    simp [probeCluster, zeroCluster, zeroEntry]
  · simp [probeCluster, zeroCluster, zeroEntry, h, clusterVal]

/-- Probing a cleared table reports found = false for every fingerprint. -/
lemma probe_clear_found_false (N T : Nat) (hT : 0 < T) (hN : 0 < N)
    (t : Nat → Cluster) (g key : Nat) :
    TranspositionTable.probe N (TranspositionTable.clear N T t) g key
      = some (0, false) := by
  unfold TranspositionTable.probe
  rw [if_pos (firstEntryIndex_lt key N hN),
    clear_eq_zero N T hT t _ (firstEntryIndex_lt key N hN), probeCluster_zero]

/-- Masking with 248 only looks at bits 3-7, so reducing mod 256 first
does not change the result: the relative-age computation is effectively
8-bit. -/
lemma and248_mod256 (x : Nat) : x % 256 &&& 248 = x &&& 248 := by
  apply Nat.eq_of_testBit_eq
  intro i
  rcases Nat.lt_or_ge i 8 with h | h
  · rw [Nat.testBit_and, Nat.testBit_and]
    have hm : x % 256 = x % 2 ^ 8 := by norm_num
    rw [hm, Nat.testBit_mod_two_pow]
    simp [h]
  · have h248 : Nat.testBit 248 i = false :=
      Nat.testBit_lt_two_pow
        (lt_of_lt_of_le (by norm_num) (Nat.pow_le_pow_right (by norm_num) h))
    rw [Nat.testBit_and, Nat.testBit_and, h248]
    simp

/-- An accumulating foldl of additions is the accumulator plus the list sum. -/
lemma foldl_add_eq_sum (f : Nat → Nat) (l : List Nat) (c : Nat) :
    l.foldl (fun a i => a + f i) c = c + (l.map f).sum := by
  induction l generalizing c with
  | nil => simp
  | cons a l ih =>
    rw [List.foldl_cons, ih]
    simp [List.map_cons, List.sum_cons]
    omega

/-- Each occupancy indicator contributes at most 1. -/
lemma freshInd_le (e : TTEntry) (g : Nat) : freshInd e g ≤ 1 := by
  unfold freshInd
  split_ifs <;> omega

/-- A cluster contributes at most ClusterSize to the hashfull count. -/
lemma freshCount_le (c : Cluster) (g : Nat) : freshCount c g ≤ 3 := by
  have h0 := freshInd_le (c 0) g
  have h1 := freshInd_le (c 1) g
  have h2 := freshInd_le (c 2) g
  unfold freshCount
  omega

/-- The hashfull count over any index list is at most 3 per cluster. -/
lemma sum_map_freshCount_le (t : Nat → Cluster) (g : Nat) (l : List Nat) :
    (l.map (fun i => freshCount (t i) g)).sum ≤ 3 * l.length := by
  induction l with
  | nil => simp
  | cons a l ih =>
    rw [List.map_cons, List.sum_cons, List.length_cons]
    have := freshCount_le (t a) g
    omega

/-- C1 (counterexample): for an occupied entry with stored bound LOWER and
stored depth 10 (raw depth8 = 13), stored generation equal to the current
generation and the same key fragment, a save with bound LOWER, depth 9 and
pv = false does NOT leave the non-move fields unchanged: the replacement
test `d - DEPTH_ENTRY_OFFSET + 2*pv > depth8 - 4` is 12 > 9, so the entry
is overwritten, contradicting the claim. -/
theorem save_shallower_depth_cex :
    ¬ nonMoveFieldsEq (entryDepth10.save 5 200 false Bound.BOUND_LOWER 9 0 60 8)
      entryDepth10 := by decide

/-- C1 (amended): in the C1 scenario (occupied entry, bound LOWER, stored
depth 10, same generation, same key fragment, new bound LOWER, pv false)
a save with depth 9 OVERWRITES the entry (the test admits any new depth
greater than the stored depth minus 4); the non-move fields are left
unchanged only when the new depth is at most the stored depth minus 4
(e.g. depth 6); with new bound EXACT, save overwrites regardless of depth. -/
theorem save_depth_scenario :
    ((entryDepth10.save 5 200 false Bound.BOUND_LOWER 9 0 60 8).depth8 = 12 ∧
     (entryDepth10.save 5 200 false Bound.BOUND_LOWER 9 0 60 8).value16 = 200 ∧
     (entryDepth10.save 5 200 false Bound.BOUND_LOWER 9 0 60 8).eval16 = 60) ∧
    (∀ d : Int,
      (entryDepth10.save 5 200 false Bound.BOUND_EXACT d 0 60 8).key16 = 5 ∧
      (entryDepth10.save 5 200 false Bound.BOUND_EXACT d 0 60 8).depth8
        = uint8OfInt (d - DEPTH_ENTRY_OFFSET) ∧
      (entryDepth10.save 5 200 false Bound.BOUND_EXACT d 0 60 8).genBound8
        = packGenBound 8 false Bound.BOUND_EXACT ∧
      (entryDepth10.save 5 200 false Bound.BOUND_EXACT d 0 60 8).value16 = 200 ∧
      (entryDepth10.save 5 200 false Bound.BOUND_EXACT d 0 60 8).eval16 = 60) ∧
    nonMoveFieldsEq (entryDepth10.save 5 200 false Bound.BOUND_LOWER 6 0 60 8)
      entryDepth10 := by
  refine ⟨by decide, ?_, by decide⟩
  intro d
  have h := save_fields_of_overwrite entryDepth10 5 200 false Bound.BOUND_EXACT d 0 60 8
    (Or.inl rfl)
  refine ⟨?_, h.2.1, h.2.2.1, ?_, ?_⟩
  · rw [h.1]
  · rw [h.2.2.2.1]; decide
  · rw [h.2.2.2.2]; decide

/-- C2 (confirmed): for every save call, the key fragment, depth,
bound+pv+generation byte, value and static-eval fields are set to the new
data exactly when the four-condition overwrite predicate holds (new bound
EXACT, or stored key fragment differing from the low 16 bits of the new
fingerprint, or new depth plus pv bonus exceeding the stored depth by more
than the fixed margin, or non-zero relative age); otherwise they all keep
their previous values. -/
theorem save_overwrites_iff_predicate (e : TTEntry) (k : Nat) (v : Int)
    (pv : Bool) (b : Bound) (d : Int) (m : Nat) (ev : Int) (g : Nat) :
    (specOverwrite e k pv b d g →
      (e.save k v pv b d m ev g).key16 = k % 65536 ∧
      (e.save k v pv b d m ev g).depth8 = uint8OfInt (d - DEPTH_ENTRY_OFFSET) ∧
      (e.save k v pv b d m ev g).genBound8 = packGenBound g pv b ∧
      (e.save k v pv b d m ev g).value16 = int16OfInt v ∧
      (e.save k v pv b d m ev g).eval16 = int16OfInt ev) ∧
    (¬ specOverwrite e k pv b d g →
      nonMoveFieldsEq (e.save k v pv b d m ev g) e) :=
  ⟨save_fields_of_overwrite e k v pv b d m ev g,
   save_fields_of_keep e k v pv b d m ev g⟩

/-- Witness for C2: a bound-EXACT save overwrites a fresh same-key entry,
and a shallower bound-LOWER save leaves it untouched. -/
theorem save_overwrites_iff_predicate_witness :
    ((entryDepth10.save 5 300 false Bound.BOUND_EXACT 4 0 61 8).key16 = 5 ∧
     (entryDepth10.save 5 300 false Bound.BOUND_EXACT 4 0 61 8).depth8 = 7 ∧
     (entryDepth10.save 5 300 false Bound.BOUND_EXACT 4 0 61 8).genBound8 = 11 ∧
     (entryDepth10.save 5 300 false Bound.BOUND_EXACT 4 0 61 8).value16 = 300 ∧
     (entryDepth10.save 5 300 false Bound.BOUND_EXACT 4 0 61 8).eval16 = 61) ∧
    nonMoveFieldsEq (entryDepth10.save 5 201 false Bound.BOUND_LOWER 5 0 62 8)
      entryDepth10 := by
  constructor
  · have h := (save_overwrites_iff_predicate entryDepth10 5 300 false
      Bound.BOUND_EXACT 4 0 61 8).1 (by decide)
    refine ⟨?_, ?_, ?_, ?_, ?_⟩
    · rw [h.1]
    · rw [h.2.1]; decide
    · rw [h.2.2.1]; decide
    · rw [h.2.2.2.1]; decide
    · rw [h.2.2.2.2]; decide
  · exact (save_overwrites_iff_predicate entryDepth10 5 201 false
      Bound.BOUND_LOWER 5 0 62 8).2 (by decide)

/-- C5 (confirmed): the stored move is replaced by the move of the caller exactly
when the caller supplies a non-none move or the stored key fragment differs
from the low 16 bits of the new fingerprint, and kept otherwise; and when
the overwrite predicate is false, every field other than the move is left
unchanged by save. -/
theorem save_move_retention_frame (e : TTEntry) (k : Nat) (v : Int)
    (pv : Bool) (b : Bound) (d : Int) (m : Nat) (ev : Int) (g : Nat) :
    ((m ≠ 0 ∨ e.key16 ≠ k % 65536) → (e.save k v pv b d m ev g).move16 = m) ∧
    ((m = 0 ∧ e.key16 = k % 65536) →
      (e.save k v pv b d m ev g).move16 = e.move16) ∧
    (¬ specOverwrite e k pv b d g →
      nonMoveFieldsEq (e.save k v pv b d m ev g) e) := by
  refine ⟨?_, ?_, save_fields_of_keep e k v pv b d m ev g⟩
  · intro h
    rw [save_move16_eq]
    rcases h with h | h
    · rw [if_pos (Or.inl h)]
    · rw [if_pos (Or.inr (Ne.symm h))]
  · intro h
    rw [save_move16_eq, if_neg (by push_neg; exact ⟨h.1, h.2.symm⟩)]

/-- Witness for C5: a supplied move is stored; with no move and the same
key fragment the old move (7) is retained. -/
theorem save_move_retention_frame_witness :
    (entryDepth10.save 5 200 false Bound.BOUND_LOWER 12 44 60 8).move16 = 44 ∧
    (entryDepth10.save 5 200 false Bound.BOUND_LOWER 12 0 60 8).move16 = 7 := by
  constructor
  · exact (save_move_retention_frame entryDepth10 5 200 false
      Bound.BOUND_LOWER 12 44 60 8).1 (Or.inl (by decide))
  · have h := (save_move_retention_frame entryDepth10 5 200 false
      Bound.BOUND_LOWER 12 0 60 8).2.1 ⟨rfl, by decide⟩
    rw [h]; decide

/-- C3 (confirmed): probe scans the owning cluster in order for a key16
match with the low 16 bits of the fingerprint; on a match it returns the
first matching entry with found true exactly when its depth field is
non-zero; with no match it reports found false and returns an entry
minimizing `depth8 - 2 * relative_age`, ties keeping the earlier-scanned
entry (the first entry being the initial candidate). -/
theorem probe_cluster_scan (N : Nat) (t : Nat → Cluster) (g key : Nat)
    (hN : 0 < N) :
    (∀ j : Fin ClusterSize,
      (t (firstEntryIndex key N) j).key16 = key % 65536 →
      (∀ j2 : Fin ClusterSize, j2 < j →
        (t (firstEntryIndex key N) j2).key16 ≠ key % 65536) →
      TranspositionTable.probe N t g key
        = some (j, (t (firstEntryIndex key N) j).depth8 != 0)) ∧
    ((∀ j : Fin ClusterSize,
        (t (firstEntryIndex key N) j).key16 ≠ key % 65536) →
      ∃ i : Fin ClusterSize,
        TranspositionTable.probe N t g key = some (i, false) ∧
        (∀ j : Fin ClusterSize,
          clusterVal (t (firstEntryIndex key N) i) g
            ≤ clusterVal (t (firstEntryIndex key N) j) g) ∧
        (∀ j : Fin ClusterSize, j < i →
          clusterVal (t (firstEntryIndex key N) i) g
            < clusterVal (t (firstEntryIndex key N) j) g)) := by
  constructor
  · intro j hj hmin
    unfold TranspositionTable.probe
    rw [if_pos (firstEntryIndex_lt key N hN),
      probeCluster_match (t (firstEntryIndex key N)) (key % 65536) g j hj hmin]
  · intro h
    obtain ⟨hf, hle, hstrict⟩ := probeCluster_nomatch (t (firstEntryIndex key N))
      (key % 65536) g (h 0) (h 1) (h 2)
    refine ⟨(probeCluster (t (firstEntryIndex key N)) (key % 65536) g).1,
      ?_, hle, hstrict⟩
    unfold TranspositionTable.probe
    rw [if_pos (firstEntryIndex_lt key N hN)]
    have hpair : probeCluster (t (firstEntryIndex key N)) (key % 65536) g
        = ((probeCluster (t (firstEntryIndex key N)) (key % 65536) g).1, false) := by
      rw [← hf]
    rw [hpair]

/-- Witness for C3: on a one-cluster table whose cluster holds a
non-matching entry at slot 0 and an occupied entry with key fragment 5 at
slot 1, probing fingerprint 5 finds slot 1 with found = true. -/
theorem probe_cluster_scan_witness :
    TranspositionTable.probe 1 tableW 16 5 = some (1, true) := by
  have h := (probe_cluster_scan 1 tableW 16 5 (by decide)).1 1 (by decide) (by decide)
  exact h.trans (by decide)

/-- C6 (confirmed): clear partitions the cluster range [0, clusterCount)
into one stride per worker thread of size clusterCount / threadCount with
the remainder folded into the last stride; the strides cover every cluster
exactly once; after clear (and after a successful resize, which ends with
a clear) every cluster is zero, and probe on the cleared table reports
found = false for every fingerprint. -/
theorem clear_partition_zero (T : Nat) (hT : 0 < T) :
    (∀ N j : Nat, j < N → ∃! i : Nat, i < T ∧ inStride N T j i) ∧
    (∀ N : Nat, ∀ t : Nat → Cluster, ∀ j : Nat, j < N →
      TranspositionTable.clear N T t j = zeroCluster) ∧
    (∀ N : Nat, 0 < N → ∀ t : Nat → Cluster, ∀ g key : Nat,
      ∃ i : Fin ClusterSize,
        TranspositionTable.probe N (TranspositionTable.clear N T t) g key
          = some (i, false)) ∧
    (∀ mbSize : Nat, ∀ alloc : Nat → Option (Nat → Cluster),
      ∀ Ncount : Nat, ∀ tbl : Nat → Cluster,
      TranspositionTable.resize mbSize alloc T = Except.ok (Ncount, tbl) →
      ∀ j : Nat, j < Ncount → tbl j = zeroCluster) := by
  refine ⟨?_, ?_, ?_, ?_⟩
  · intro N j hj
    obtain ⟨i, hiT, hins⟩ := stride_exists N T hT j hj
    exact ⟨i, ⟨hiT, hins⟩, fun i2 h2 => stride_unique N T j h2 ⟨hiT, hins⟩⟩
  · intro N t j hj
    exact clear_eq_zero N T hT t j hj
  · intro N hN t g key
    exact ⟨0, probe_clear_found_false N T hT hN t g key⟩
  · intro mb alloc Ncount tbl hok j hj
    unfold TranspositionTable.resize at hok
    cases halloc : alloc (TranspositionTable.resizeBytes mb) with
    | none =>
        rw [halloc] at hok
        simp at hok
    | some mem =>
        rw [halloc] at hok
        obtain ⟨hc, htb⟩ := Prod.mk.inj (Except.ok.inj hok)
        subst hc
        subst htb
        exact clear_eq_zero _ T hT mem j hj

/-- Witness for C6: clearing a 5-cluster table with 2 threads zeroes
cluster 4 (which lies in the last, remainder-carrying stride). -/
theorem clear_partition_zero_witness :
    TranspositionTable.clear 5 2 tableW 4 = zeroCluster :=
  (clear_partition_zero 2 (by decide)).2.1 5 tableW 4 (by decide)

/-- C7 (confirmed): relative_age computes
`(GENERATION_CYCLE + generation8 - genBound8) & GENERATION_MASK`, and the
masked result agrees with the same computation reduced mod 256, i.e. it is
effectively 8-bit; consequently it is cyclic: the result is unchanged when
the current-generation argument g1 + d is shifted by a full 256 cycle
(which wraps to the same 8-bit value). -/
theorem relative_age_formula_cyclic (e : TTEntry) (g1 d : Nat) :
    (∀ g : Nat, e.relative_age g
        = ((TranspositionTable.GENERATION_CYCLE + g - e.genBound8) % 256)
          &&& TranspositionTable.GENERATION_MASK) ∧
    e.relative_age ((g1 + d) % 256) = e.relative_age ((g1 + d + 256) % 256) := by
  constructor
  · intro g
    unfold TTEntry.relative_age
    have hm : TranspositionTable.GENERATION_MASK = 248 := by decide
    rw [hm]
    exact (and248_mod256 _).symm
  · have hmod : (g1 + d + 256) % 256 = (g1 + d) % 256 := Nat.add_mod_right _ _
    rw [hmod]

/-- C4 (counterexample): on a table of 500 clusters, hashfull does not scan
"all clusters" and return a count: the loop bound is the constant 1000 with
no clamp to clusterCount, so the scan reads out of bounds (modelled as
none) instead of returning the count 0 the claim requires. -/
theorem hashfull_small_table_cex :
    TranspositionTable.hashfull 500 (fun _ => zeroCluster) 8 = none := by decide

/-- C4 (amended): hashfull inspects exactly the first 1000 clusters
unconditionally (requiring the table to hold at least 1000 clusters; on a
smaller table the reads run out of bounds), counts the entries among them
with non-zero depth and generation bits equal to the current generation,
and returns that count divided (integer division) by the cluster size, a
value between 0 and 1000. -/
theorem hashfull_first_1000 (N : Nat) (t : Nat → Cluster) (g : Nat)
    (h : 1000 ≤ N) :
    TranspositionTable.hashfull N t g
      = some ((((List.range 1000).map (fun i => freshCount (t i) g)).sum)
          / ClusterSize) ∧
    ∀ n : Nat, TranspositionTable.hashfull N t g = some n → n ≤ 1000 := by
  have hval : TranspositionTable.hashfull N t g
      = some ((((List.range 1000).map (fun i => freshCount (t i) g)).sum)
          / ClusterSize) := by
    unfold TranspositionTable.hashfull
    rw [if_pos h]
    rw [foldl_add_eq_sum (fun i => freshCount (t i) g) (List.range 1000) 0]
    rw [Nat.zero_add]
  refine ⟨hval, ?_⟩
  intro n hn
  rw [hval] at hn
  have hn2 := Option.some.inj hn
  have hb : (((List.range 1000).map (fun i => freshCount (t i) g)).sum) ≤ 3000 := by
    have hs := sum_map_freshCount_le t g (List.range 1000)
    simpa using hs
  have hn3 : (((List.range 1000).map (fun i => freshCount (t i) g)).sum) / 3 = n := hn2
  omega

/-- Witness for C4: on a 1000-cluster all-zero table, hashfull returns 0. -/
theorem hashfull_first_1000_witness :
    TranspositionTable.hashfull 1000 (fun _ => zeroCluster) 0 = some 0 := by
  have h := (hashfull_first_1000 1000 (fun _ => zeroCluster) 0 (by decide)).1
  have hz : (((List.range 1000).map
      (fun i => freshCount ((fun _ => zeroCluster) i) 0)).sum) = 0 := by
    apply List.sum_eq_zero
    intro x hx
    rw [List.mem_map] at hx
    obtain ⟨i, _, hxi⟩ := hx
    rw [← hxi]
    show freshCount zeroCluster 0 = 0
    decide
  rw [h, hz]
  rfl

/-- C8 (confirmed): after a resize requesting M megabytes (with the
allocation succeeding), the cluster count of the table is exactly
`M * 1024 * 1024 / sizeof(Cluster)` by integer division; the count is not
rounded to a power of two (for M = 3 it is 98304, not a power of two). -/
theorem resize_cluster_count :
    (∀ mbSize : Nat, ∀ alloc : Nat → Option (Nat → Cluster), ∀ T : Nat,
      ∀ mem : Nat → Cluster,
      alloc (TranspositionTable.resizeBytes mbSize) = some mem →
      TranspositionTable.resize mbSize alloc T
        = Except.ok (mbSize * 1024 * 1024 / TranspositionTable.sizeOfCluster,
            TranspositionTable.clear
              (mbSize * 1024 * 1024 / TranspositionTable.sizeOfCluster) T mem)) ∧
    (∀ k : Nat, 3 * 1024 * 1024 / TranspositionTable.sizeOfCluster ≠ 2 ^ k) := by
  constructor
  · intro mb alloc T mem halloc
    unfold TranspositionTable.resize TranspositionTable.resizeClusterCount
    rw [halloc]
  · intro k h
    have hsc : TranspositionTable.sizeOfCluster = 32 := rfl
    rw [hsc] at h
    have h9 : 3 * 1024 * 1024 / 32 = 98304 := by norm_num
    rw [h9] at h
    rcases le_or_lt k 16 with hk | hk
    · have hle : 2 ^ k ≤ 2 ^ 16 := Nat.pow_le_pow_right (by norm_num) hk
      have h16 : (2 : Nat) ^ 16 = 65536 := by norm_num
      omega
    · have hle : 2 ^ 17 ≤ 2 ^ k := Nat.pow_le_pow_right (by norm_num) hk
      have h17 : (2 : Nat) ^ 17 = 131072 := by norm_num
      omega

/-- Witness for C8: resizing to 2 MB yields 65536 clusters. -/
theorem resize_cluster_count_witness :
    TranspositionTable.resize 2 (fun _ => some (fun _ => zeroCluster)) 1
      = Except.ok (65536,
          TranspositionTable.clear 65536 1 (fun _ => zeroCluster)) := by
  have h := resize_cluster_count.1 2 (fun _ => some (fun _ => zeroCluster)) 1
    (fun _ => zeroCluster) rfl
  exact h

/-- C9 (counterexample): hashfull is not infallible on every input: on a
999-cluster table the unconditional scan of the first 1000 clusters reads
out of bounds instead of returning normally. -/
theorem hashfull_not_infallible_cex :
    TranspositionTable.hashfull 999 (fun _ => zeroCluster) 0 = none := by decide

/-- C9 (amended): resize fails only on allocation failure, in which case it
terminates with the non-zero status 1 (after a diagnostic) with no retry
and no fallback capacity; its outcome depends only on the answer of the
allocator for the single requested size; save and clear are total; probe
returns normally on every non-empty table; hashfull returns normally
exactly on tables holding at least 1000 clusters; and every stride written
by clear stays within the table bounds. -/
theorem tt_error_model :
    (∀ mbSize : Nat, ∀ alloc : Nat → Option (Nat → Cluster), ∀ T : Nat,
      alloc (TranspositionTable.resizeBytes mbSize) = none →
      TranspositionTable.resize mbSize alloc T = Except.error 1) ∧
    (∀ mbSize : Nat, ∀ alloc : Nat → Option (Nat → Cluster), ∀ T : Nat,
      ∀ c : Nat, TranspositionTable.resize mbSize alloc T = Except.error c →
      c ≠ 0) ∧
    (∀ mbSize : Nat, ∀ alloc alloc2 : Nat → Option (Nat → Cluster), ∀ T : Nat,
      alloc (TranspositionTable.resizeBytes mbSize)
        = alloc2 (TranspositionTable.resizeBytes mbSize) →
      TranspositionTable.resize mbSize alloc T
        = TranspositionTable.resize mbSize alloc2 T) ∧
    (∀ N : Nat, ∀ t : Nat → Cluster, ∀ g : Nat,
      (∃ n, TranspositionTable.hashfull N t g = some n) ↔ 1000 ≤ N) ∧
    (∀ N : Nat, ∀ t : Nat → Cluster, ∀ g key : Nat, 0 < N →
      ∃ r, TranspositionTable.probe N t g key = some r) ∧
    (∀ N T i : Nat, i < T →
      (strideOf N T i).1 + (strideOf N T i).2 ≤ N) := by
  refine ⟨?_, ?_, ?_, ?_, ?_, ?_⟩
  · intro mb alloc T halloc
    unfold TranspositionTable.resize
    rw [halloc]
  · intro mb alloc T c herr
    unfold TranspositionTable.resize at herr
    cases halloc : alloc (TranspositionTable.resizeBytes mb) with
    | none =>
        rw [halloc] at herr
        have := Except.error.inj herr
        omega
    | some mem =>
        rw [halloc] at herr
        simp at herr
  · intro mb alloc alloc2 T heq
    unfold TranspositionTable.resize
    rw [heq]
  · intro N t g
    constructor
    · intro ⟨n, hn⟩
      unfold TranspositionTable.hashfull at hn
      by_contra hN
      rw [if_neg hN] at hn
      simp at hn
    · intro hN
      unfold TranspositionTable.hashfull
      rw [if_pos hN]
      exact ⟨_, rfl⟩
  · intro N t g key hN
    unfold TranspositionTable.probe
    rw [if_pos (firstEntryIndex_lt key N hN)]
    exact ⟨_, rfl⟩
  · intro N T i hiT
    unfold strideOf
    by_cases hlast : i + 1 ≠ T
    · rw [if_pos hlast]
      have h1 : N / T * (i + 1) ≤ N / T * T := Nat.mul_le_mul_left _ (by omega)
      have h2 : N / T * T ≤ N := Nat.div_mul_le_self N T
      have h3 : N / T * (i + 1) = N / T * i + N / T := by ring
      omega
    · rw [if_neg hlast]
      have h1 : N / T * i ≤ N / T * T := Nat.mul_le_mul_left _ (by omega)
      have h2 : N / T * T ≤ N := Nat.div_mul_le_self N T
      omega

/-- Witness for C9: a failing allocator makes a 1 MB resize exit with
status 1. -/
theorem tt_error_model_witness :
    TranspositionTable.resize 1 (fun _ => none) 4 = Except.error 1 :=
  tt_error_model.1 1 (fun _ => none) 4 rfl

/-- C10 (confirmed): for every combination of inputs (position not in
check, any optimism, and in particular any state of the RandomEval blending
path), Eval::evaluate returns a value v with
VALUE_TB_LOSS_IN_MAX_PLY + 1 <= v <= VALUE_TB_WIN_IN_MAX_PLY - 1: the
final clamp keeps the static evaluation out of the tablebase score range. -/
theorem evaluate_in_tb_range (simpleEval nnue0 nnueComplexity npmRaw pawnCnt
    shuffling optimism0 randomEval waitMs r : Int) :
    VALUE_TB_LOSS_IN_MAX_PLY + 1
        ≤ evaluate simpleEval nnue0 nnueComplexity npmRaw pawnCnt shuffling
            optimism0 randomEval waitMs r ∧
    evaluate simpleEval nnue0 nnueComplexity npmRaw pawnCnt shuffling
        optimism0 randomEval waitMs r
      ≤ VALUE_TB_WIN_IN_MAX_PLY - 1 := by
  simp only [evaluate, clampInt, VALUE_TB_LOSS_IN_MAX_PLY,
    VALUE_TB_WIN_IN_MAX_PLY, VALUE_TB, VALUE_MATE_IN_MAX_PLY, VALUE_MATE,
    MAX_PLY]
  split_ifs <;> omega

end Stockfish
